import Mathlib

/-!
Shallow embedding of the brightsky data-pipeline core (parsers.py, polling.py,
query.py) and verification of its specification claims.

Modelling conventions:
* Python floats are modelled as rationals (`ℚ`); all measurement arithmetic in
  the embedded code is exact on the inputs that appear in the claims.
* Timestamps are modelled as natural numbers counting hours, so one day is 24
  and an "hourly" timestamp grid is the whole of `ℕ`.
* A weather record's nullable measurement columns are a function
  `Field → Option ℚ`, mirroring the Python dict with its fixed key set.
* Python exceptions are modelled with `Except` over an explicit error type.
-/

deriving instance DecidableEq for Except

namespace Brightsky

/-- The six nullable measurement columns of a weather record
(parsers.py `ELEMENTS` maps / the `weather` table). -/
inductive Field where
  | temperature
  | wind_direction
  | wind_speed
  | precipitation
  | sunshine
  | pressure_msl
deriving DecidableEq, Fintype

/-- All measurement columns, in the column order of the row dicts. -/
def Field.all : List Field :=
  [.temperature, .wind_direction, .wind_speed, .precipitation, .sunshine,
   .pressure_msl]

theorem Field.mem_all (f : Field) : f ∈ Field.all := by
  cases f <;> simp [Field.all]

/-- A row of the `weather` table (`SELECT *` columns restricted to the key
pair and the measurement columns). -/
structure Row where
  source_id : Nat
  timestamp : Nat
  fields : Field → Option ℚ
deriving DecidableEq

instance : Inhabited Row := ⟨⟨0, 0, fun _ => none⟩⟩

/-- Point update of a record's measurement dict (`r[f] = v`). -/
def updField (r : Field → Option ℚ) (f : Field) (v : Option ℚ) :
    Field → Option ℚ :=
  fun g => if g = f then v else r g

/-- Python truthiness of a nullable float: `None` and `0.0` are falsy. -/
def pyTruthy (v : Option ℚ) : Bool :=
  match v with
  | none => false
  | some x => decide (x ≠ 0)

/-- First statement of `MOSMIXParser.sanitize_records` (parsers.py lines
136-139): `if r['precipitation'] and r['precipitation'] < 0:
r['precipitation'] = None`. -/
def precipStep (r : Field → Option ℚ) : Field → Option ℚ :=
  if pyTruthy (r Field.precipitation) &&
      decide ((r Field.precipitation).getD 0 < 0) then
    updField r Field.precipitation none
  else r

/-- Second statement of `MOSMIXParser.sanitize_records` (parsers.py lines
140-143): `if r['wind_direction'] and r['wind_direction'] > 360:
r['wind_direction'] -= 360`. -/
def windStep (r : Field → Option ℚ) : Field → Option ℚ :=
  if pyTruthy (r Field.wind_direction) &&
      decide (360 < (r Field.wind_direction).getD 0) then
    updField r Field.wind_direction
      (some ((r Field.wind_direction).getD 0 - 360))
  else r

/-- `MOSMIXParser.sanitize_records`, per record (parsers.py lines 134-144):
null the precipitation when it is truthy and negative, then subtract 360 from
the wind direction when it is truthy and strictly greater than 360. -/
def sanitizeMosmixRecord (r : Field → Option ℚ) : Field → Option ℚ :=
  windStep (precipStep r)

/-- `MOSMIXParser.sanitize_records` over the record stream. -/
def sanitize_records (rs : List (Field → Option ℚ)) : List (Field → Option ℚ) :=
  rs.map sanitizeMosmixRecord

/-- The loop body of `ObservationsParser.sanitize_record` (parsers.py lines
349-356), given the per-timestamp ignored values the first line of the method
tries to read: a field whose current value equals the configured bad value is
nulled, any other listed field is left unchanged (a warning is logged). This
body is unreachable in the source — the attribute read that is supposed to
produce `ignores` fails, see `observationsParserAttributes` and
`sanitize_record`. -/
def sanitize_record_obs (ignores : List (Field × ℚ)) (r : Field → Option ℚ) :
    Field → Option ℚ :=
  ignores.foldl
    (fun acc fv => if acc fv.1 = some fv.2 then updField acc fv.1 none else acc)
    r

/-- The attribute names defined on `ObservationsParser` objects (class bodies
of `Parser` and `ObservationsParser` in parsers.py). The ignored-values
property is defined under the name `_ignored_values`, and no attribute named
`ignored_values` exists, although `sanitize_record` reads
`self.ignored_values`. -/
def observationsParserAttributes : List String :=
  ["DEFAULT_URL", "logger", "url", "path", "downloaded_files", "download",
   "should_skip", "parse", "cleanup", "elements", "converters",
   "_ignored_values", "parse_station_id", "parse_observation_type",
   "parse_lat_lon_history", "parse_records", "parse_elements",
   "sanitize_record"]

/-- A station location entry of a `Metadaten_Geographie_<id>.txt` history:
`(lat, lon, height, station_name)`. -/
abbrev Location := ℚ × ℚ × ℚ × String

/-- The location-selection loop of `ObservationsParser.parse_records`
(parsers.py lines 320-323): iterate over the history in its stored order,
break at the first entry whose date exceeds the row timestamp, keep the last
assigned location. `acc` is the value the Python loop variables hold when the
loop starts (from the previous row, or unassigned = `none`). -/
def selectLocation : List (Nat × Location) → Nat → Option Location →
    Option Location
  | [], _, acc => acc
  | e :: rest, t, acc =>
    if t < e.1 then acc else selectLocation rest t (some e.2)

/-- The per-row location assignment of `ObservationsParser.parse_records`,
threading the Python loop variables across rows. -/
def parse_records_locations (history : List (Nat × Location)) :
    Option Location → List Nat → List (Nat × Option Location)
  | _, [] => []
  | acc, t :: ts =>
    (t, selectLocation history t acc) ::
      parse_records_locations history (selectLocation history t acc) ts

/-- One step of the spec-side maximum search: keep the entry with the larger
`valid_from` among those that are at most `t`. -/
def bestStep (t : Nat) (acc : Option (Nat × Location)) (e : Nat × Location) :
    Option (Nat × Location) :=
  if e.1 ≤ t then
    match acc with
    | none => some e
    | some q => if q.1 < e.1 then some e else some q
  else acc

/-- Modelled from the spec side of the location claim: the history entry with
the greatest `valid_from` that is at most `t` (first such entry on equal
keys). -/
def specBestEntry (history : List (Nat × Location)) (t : Nat) :
    Option (Nat × Location) :=
  history.foldl (bestStep t) none

/-- Modelled from the spec side of the location claim: the location of the
history entry with the greatest `valid_from ≤ t`. -/
def specLatestLocation (history : List (Nat × Location)) (t : Nat) :
    Option Location :=
  (specBestEntry history t).map (fun e => e.2)

/-- Python exception kinds appearing in the embedded code and in the spec's
error taxonomy. `missingStationError` is the spec's name (§7); nothing in the
source raises it. -/
inductive PyError where
  | valueError (msg : String)
  | lookupError (msg : String)
  | attributeError (msg : String)
  | missingStationError
deriving DecidableEq

/-- An observation record at emission time: its timestamp and measurement
fields (station id, location and provenance do not participate in
sanitization). -/
structure ORecord where
  timestamp : Nat
  fields : Field → Option ℚ
deriving DecidableEq

/-- Python attribute lookup of `name` on an `ObservationsParser` object:
delivers the bound value when the class defines the name and raises
`AttributeError` otherwise. `v` is the value the attribute would be bound
to. -/
def pyGetattr {α : Type} (name : String) (v : α) : Except PyError α :=
  if name ∈ observationsParserAttributes then .ok v
  else .error (.attributeError name)

/-- `ObservationsParser.sanitize_record` (parsers.py lines 347-356): its
first expression reads `self.ignored_values`, and only `_ignored_values`
exists on the class, so the lookup raises `AttributeError` before any field
is examined. Were the attribute defined and bound to the per-URL provider
`prov` (timestamp to ignored values), the method would apply the override
loop `sanitize_record_obs` at the record's timestamp. -/
def sanitize_record (prov : Nat → List (Field × ℚ)) (rec : ORecord) :
    Except PyError ORecord :=
  match pyGetattr "ignored_values" prov with
  | .error e => .error e
  | .ok ig => .ok ⟨rec.timestamp, sanitize_record_obs (ig rec.timestamp)
      rec.fields⟩

/-- The records actually yielded by `ObservationsParser.parse` (parsers.py
lines 259-270): `self.sanitize_record(record)` runs immediately before each
`yield`, so the generator delivers the sanitized records up to the first
exception — and nothing from the record on which sanitization raised. -/
def emittedObsRecords (prov : Nat → List (Field × ℚ)) :
    List ORecord → List ORecord
  | [] => []
  | rec :: rest =>
    match sanitize_record prov rec with
    | .error _ => []
    | .ok rec2 => rec2 :: emittedObsRecords prov rest

/-- Python `str.endswith`, on the character lists underlying the strings. -/
def pyEndsWith (s suffix : String) : Bool :=
  decide (suffix.data.length ≤ s.data.length) &&
    decide (s.data.drop (s.data.length - suffix.data.length) = suffix.data)

/-- `ObservationsParser.parse_observation_type` (parsers.py lines 278-285). -/
def parse_observation_type (filename : String) : Except PyError String :=
  if pyEndsWith filename "_akt.zip" then .ok "recent"
  else if pyEndsWith filename "_hist.zip" then .ok "historical"
  else .error (.valueError
    ("Unable to determine observation type from path " ++ filename))

/-- The `source` value set on every record by
`ObservationsParser.parse_records` (parsers.py line 325): the literal
`f'Observations:Recent:{filename}'`. -/
def observationsRecordSource (product_filename : String) : String :=
  "Observations:Recent:" ++ product_filename

/-- A parse job candidate found in a remote directory listing
(`DWDPoller.parse`): URL, parser class name and the
`(last_modified, file_size)` fingerprint. -/
structure PollFileInfo where
  url : String
  parser_name : String
  last_modified : Nat
  file_size : Nat
deriving DecidableEq

/-- `DWDPoller.poll` (polling.py lines 39-50), given the ledger contents
(`SELECT * FROM parsed_files`, keyed by the primary key `url`) and the file
entries produced by walking the directory listings: emit exactly those whose
fingerprint differs from the ledger entry for their URL. -/
def poll (parsed_files : List (String × Nat × Nat))
    (listing : List PollFileInfo) : List PollFileInfo :=
  listing.filter (fun fi =>
    decide (parsed_files.lookup fi.url ≠ some (fi.last_modified, fi.file_size)))

/-- The ledger state after every file of a listing has been ingested: each
URL is mapped to the fingerprint it was seen with. -/
def ledgerOfListing (listing : List PollFileInfo) : List (String × Nat × Nat) :=
  listing.map (fun fi => (fi.url, fi.last_modified, fi.file_size))

/-- A row of the `sources` table (columns used by query.py and by
`CurrentObservationsParser.load_location`). -/
structure SourceRow where
  id : Nat
  dwd_station_id : String
  wmo_station_id : String
  station_id : String
  station_name : String
  observation_type : String
  lat : ℚ
  lon : ℚ
  height : ℚ
deriving DecidableEq

/-- `CurrentObservationsParser.load_location` (parsers.py lines 208-222):
select the forecast row with the station's code, `ORDER BY id DESC LIMIT 1`;
raise `ValueError` when there is none. -/
def load_location (sources_table : List SourceRow) (station_id : String) :
    Except PyError (ℚ × ℚ × ℚ × String) :=
  let rows := sources_table.filter (fun s =>
    decide (s.observation_type = "forecast" ∧ s.station_id = station_id))
  match rows.argmax (fun s => s.id) with
  | none => .error (.valueError
      ("Unable to find location for station " ++ station_id))
  | some r => .ok (r.lat, r.lon, r.height, r.station_name)

/-- The `source_id` mode of `query.sources` (query.py lines 96-156):
`WHERE id = %(source_id)s ORDER BY observation_type`, raising `LookupError`
when no row matches. -/
def sources_source_id (sources_table : List SourceRow) (s : Nat) :
    Except PyError (List SourceRow) :=
  let rows := (sources_table.filter (fun src => decide (src.id = s))).insertionSort
    (fun a b => a.observation_type ≤ b.observation_type)
  if rows.isEmpty then .error (.lookupError "No sources match your criteria")
  else .ok rows

/-- The `source_id` argument of `query._weather`: a single id
(`source_id = %s`) or a preference-ordered id list
(`source_id IN %s ... array_position`). -/
inductive SourceSel where
  | single (id : Nat)
  | multi (ids : List Nat)

/-- The `WHERE` source condition of `query._weather`. -/
def SourceSel.matches : SourceSel → Nat → Bool
  | .single i, s => decide (s = i)
  | .multi ids, s => decide (s ∈ ids)

/-- The secondary `ORDER BY` key of `query._weather`:
`array_position(%(source_id)s, source_id)` in the list case, constant in the
single-id case (where the order key is the timestamp alone). -/
def SourceSel.rank : SourceSel → Row → Nat
  | .single _, _ => 0
  | .multi ids, r => ids.findIdx (fun i => i = r.source_id)

/-- The `WHERE` clause of `query._weather`:
`timestamp BETWEEN date AND last_date` (inclusive on both ends), the source
condition, and `AND f IS NOT NULL` for each requested element. -/
def matchesWeather (date last_date : Nat) (sel : SourceSel)
    (not_null : List Field) (r : Row) : Bool :=
  decide (date ≤ r.timestamp) && decide (r.timestamp ≤ last_date) &&
    sel.matches r.source_id && not_null.all (fun f => (r.fields f).isSome)

/-- `query._weather` (query.py lines 41-63):
`SELECT DISTINCT ON (timestamp) * FROM weather WHERE ... ORDER BY timestamp,
array_position(...)`: one row per distinct timestamp, ordered by timestamp,
each being the matching row of highest preference at that timestamp. -/
def weatherQuery (table : List Row) (date last_date : Nat) (sel : SourceSel)
    (not_null : List Field) : List Row :=
  let rows := table.filter (matchesWeather date last_date sel not_null)
  let ts := ((rows.map (fun r => r.timestamp)).dedup).insertionSort (· ≤ ·)
  ts.filterMap (fun t =>
    (rows.filter (fun r => decide (r.timestamp = t))).argmin sel.rank)

/-- A weather row as returned from `query.weather` with `fallback=true`:
the (possibly filled-in) measurements plus the `fallback_source_ids` dict,
which is present exactly on the rows `_fill_missing_fields` patched. -/
structure FilledRow where
  source_id : Nat
  timestamp : Nat
  fields : Field → Option ℚ
  fallback_source_ids : Option (Field → Option Nat)
deriving DecidableEq

/-- Embeds an untouched row into the result type. -/
def Row.toFilled (r : Row) : FilledRow :=
  ⟨r.source_id, r.timestamp, r.fields, none⟩

/-- The fields of a row that are null (`set(k for k, v in row.items() if v is
None)`, restricted to the nullable measurement columns). -/
def missingRowFields (r : Row) : List Field :=
  Field.all.filter (fun f => (r.fields f).isNone)

/-- The patch `_fill_missing_fields` applies to one incomplete row: if the
fallback query produced a row at the same timestamp, copy every missing field
from it and record its `source_id` per field in `fallback_source_ids`. -/
def fillRow (fallback_rows : Nat → Option Row) (r : Row) : FilledRow :=
  match fallback_rows r.timestamp with
  | none => r.toFilled
  | some fb =>
    { source_id := r.source_id
      timestamp := r.timestamp
      fields := fun f =>
        if f ∈ missingRowFields r then fb.fields f else r.fields f
      fallback_source_ids :=
        some (fun f =>
          if f ∈ missingRowFields r then some fb.source_id else none) }

/-- The timestamp of `incomplete_rows[-1]` given the list as head and tail. -/
def lastTimestamp : Row → List Row → Nat
  | r, [] => r.timestamp
  | _, r2 :: rest => lastTimestamp r2 rest

/-- `query._fill_missing_fields` (query.py lines 66-93): collect the
incomplete returned rows and the union of their missing fields, run ONE more
`_weather` query over the incomplete timestamp span restricted to rows where
every one of those fields is non-null, and patch each incomplete row from the
fallback row at its timestamp, if any. The `date` and `last_date` arguments
are accepted and unused, as in the source. -/
def _fill_missing_fields (table : List Row) (weather_rows : List Row)
    (date last_date : Nat) (source_ids : List Nat) : List FilledRow :=
  let incomplete_rows := weather_rows.filter
    (fun r => !(missingRowFields r).isEmpty)
  let missing_fields := Field.all.filter
    (fun f => incomplete_rows.any (fun r => f ∈ missingRowFields r))
  match incomplete_rows with
  | [] => weather_rows.map Row.toFilled
  | first :: rest =>
    let fallback_list := weatherQuery table first.timestamp
      (lastTimestamp first rest) (.multi source_ids) missing_fields
    let fallback_rows := fun t =>
      fallback_list.reverse.find? (fun r => decide (r.timestamp = t))
    weather_rows.map (fun r =>
      if (missingRowFields r).isEmpty then r.toFilled
      else fillRow fallback_rows r)

/-- The multi-source branch of `query.weather` with `fallback=true`
(query.py lines 21-29), over an already-resolved candidate source id list in
preference order: the primary `_weather` query followed by
`_fill_missing_fields`. -/
def weather_with_fallback (table : List Row) (source_ids : List Nat)
    (date last_date : Nat) : List FilledRow :=
  let weather_rows := weatherQuery table date last_date (.multi source_ids) []
  _fill_missing_fields table weather_rows date last_date source_ids

/-- The result value of `query.weather`: the `weather` list and, only in the
multi-source branch, a `sources` key. -/
structure QueryResult where
  weather : List Row
  sources : Option (List SourceRow)
deriving DecidableEq

/-- The `last_date` default of `query.weather` (query.py lines 13-14):
`if not last_date: last_date = date + datetime.timedelta(days=1)`. -/
def defaultLastDate (date : Nat) : Option Nat → Nat
  | none => date + 24
  | some x => x

/-- The `source_id` branch of `query.weather` (query.py lines 10-20):
`last_date` defaults to `date + 1 day`; fetch directly by source id; when
nothing comes back, call `sources(source_id=...)` purely so that a
nonexistent id raises `LookupError`; return a dict holding only `weather`. -/
def weather_by_source (table : List Row) (sources_table : List SourceRow)
    (date : Nat) (last_date : Option Nat) (s : Nat) :
    Except PyError QueryResult :=
  let ld := defaultLastDate date last_date
  let w := weatherQuery table date ld (.single s) []
  if w.isEmpty then
    match sources_source_id sources_table s with
    | .error e => .error e
    | .ok _ => .ok { weather := w, sources := none }
  else .ok { weather := w, sources := none }

/-! ## Helper lemmas -/

theorem updField_self (r : Field → Option ℚ) (f : Field) (v : Option ℚ) :
    updField r f v f = v := by
  simp [updField]

theorem updField_ne (r : Field → Option ℚ) (f g : Field) (v : Option ℚ)
    (h : g ≠ f) : updField r f v g = r g := by
  simp [updField, h]

theorem precipStep_other (r : Field → Option ℚ) (g : Field)
    (h : g ≠ Field.precipitation) : precipStep r g = r g := by
  unfold precipStep
  split
  · exact updField_ne _ _ _ _ h
  · rfl

theorem windStep_other (r : Field → Option ℚ) (g : Field)
    (h : g ≠ Field.wind_direction) : windStep r g = r g := by
  unfold windStep
  split
  · exact updField_ne _ _ _ _ h
  · rfl

theorem windStep_wind_direction (r : Field → Option ℚ) :
    windStep r Field.wind_direction =
      match r Field.wind_direction with
      | some d => if 360 < d then some (d - 360) else some d
      | none => none := by
  unfold windStep
  cases hw : r Field.wind_direction with
  | none => simp [pyTruthy, hw]
  | some d =>
    by_cases hlt : (360 : ℚ) < d
    · have hne : d ≠ 0 := ne_of_gt (lt_trans (by norm_num) hlt)
      simp [pyTruthy, hw, hlt, hne, updField_self]
    · simp [pyTruthy, hw, hlt]

theorem precipStep_precipitation (r : Field → Option ℚ) :
    precipStep r Field.precipitation =
      match r Field.precipitation with
      | some p => if p < 0 then none else some p
      | none => none := by
  unfold precipStep
  cases hp : r Field.precipitation with
  | none => simp [pyTruthy, hp]
  | some p =>
    by_cases hneg : p < 0
    · have hne : p ≠ 0 := ne_of_lt hneg
      simp [pyTruthy, hp, hne, hneg, updField_self]
    · rcases eq_or_ne p 0 with h0 | h0
      · simp [pyTruthy, hp, h0, hneg]
      · simp [pyTruthy, hp, h0, hneg]

theorem sanitizeMosmixRecord_wind_direction (r : Field → Option ℚ) :
    sanitizeMosmixRecord r Field.wind_direction =
      match r Field.wind_direction with
      | some d => if 360 < d then some (d - 360) else some d
      | none => none := by
  unfold sanitizeMosmixRecord
  rw [windStep_wind_direction, precipStep_other _ _ (by decide)]

theorem sanitizeMosmixRecord_precipitation (r : Field → Option ℚ) :
    sanitizeMosmixRecord r Field.precipitation =
      match r Field.precipitation with
      | some p => if p < 0 then none else some p
      | none => none := by
  unfold sanitizeMosmixRecord
  rw [windStep_other _ _ (by decide), precipStep_precipitation]

theorem sanitize_record_raises (prov : Nat → List (Field × ℚ))
    (rec : ORecord) :
    sanitize_record prov rec = .error (.attributeError "ignored_values") := by
  have h : "ignored_values" ∉ observationsParserAttributes := by decide
  unfold sanitize_record pyGetattr
  rw [if_neg h]

theorem emittedObsRecords_eq_nil (prov : Nat → List (Field × ℚ))
    (recs : List ORecord) : emittedObsRecords prov recs = [] := by
  cases recs with
  | nil => rfl
  | cons rec rest =>
    show (match sanitize_record prov rec with
      | .error _ => []
      | .ok rec2 => rec2 :: emittedObsRecords prov rest) = []
    rw [sanitize_record_raises]

/-! ## C2: wind-direction sanitization -/

/-- A MOSMIX record whose wind_direction is `v`, all other measurements 1. -/
def mosmixRecordWD (v : Option ℚ) : Field → Option ℚ :=
  updField (fun _ => some 1) Field.wind_direction v

/-- C2 counterexample: a parsed wind_direction of 800 is emitted as 440 by
`MOSMIXParser.sanitize_records` — it is neither nulled nor brought into
`[0, 360)`, so the claimed invariant is false on the code. -/
theorem C2_counterexample :
    sanitizeMosmixRecord (mosmixRecordWD (some 800)) Field.wind_direction =
      some 440 ∧ ¬((440 : ℚ) < 360) := by
  constructor
  · rw [sanitizeMosmixRecord_wind_direction]
    norm_num [mosmixRecordWD, updField]
  · norm_num

/-- C2 (amended): `MOSMIXParser.sanitize_records` subtracts 360 from a
non-null wind_direction exactly when it is strictly greater than 360 and
otherwise leaves it unchanged; no wind_direction is ever nulled, so values
that are negative, equal to 360, or at least 720 remain out of `[0, 360)`.
In particular input 370 yields 10. -/
theorem C2_wind_direction_fold :
    (∀ r : Field → Option ℚ,
      sanitizeMosmixRecord r Field.wind_direction =
        match r Field.wind_direction with
        | some d => if 360 < d then some (d - 360) else some d
        | none => none) ∧
    sanitizeMosmixRecord (mosmixRecordWD (some 370)) Field.wind_direction =
      some 10 := by
  refine ⟨sanitizeMosmixRecord_wind_direction, ?_⟩
  rw [sanitizeMosmixRecord_wind_direction]
  norm_num [mosmixRecordWD, updField]

/-! ## C5: negative precipitation -/

/-- A parsed record whose precipitation is -0.1, all other measurements 1. -/
def recordNegPrecip : Field → Option ℚ :=
  updField (fun _ => some 1) Field.precipitation (some (-1/10))

/-- C5: every record emitted by a parser satisfies the
negative-precipitation rule. For the MOSMIX parser this is substantive:
`sanitize_records` replaces a truthy parsed precipitation strictly below
zero by null, keeps every other value, and therefore never emits a negative
precipitation. For the historical/recent observation parsers it holds
vacuously: the `sanitize_record` call that precedes every `yield` raises
`AttributeError` on its `self.ignored_values` read (only `_ignored_values`
is defined), so those parsers emit no records at all — the theorem proves
the emitted list empty rather than assuming it. -/
theorem C5_negative_precipitation :
    (∀ r : Field → Option ℚ,
      sanitizeMosmixRecord r Field.precipitation =
        match r Field.precipitation with
        | some p => if p < 0 then none else some p
        | none => none) ∧
    (∀ (prov : Nat → List (Field × ℚ)) (rec : ORecord),
      sanitize_record prov rec = .error (.attributeError "ignored_values")) ∧
    (∀ (prov : Nat → List (Field × ℚ)) (recs : List ORecord),
      emittedObsRecords prov recs = []) ∧
    (∀ (rs : List (Field → Option ℚ)) (r : Field → Option ℚ),
      r ∈ sanitize_records rs →
      ¬∃ p, r Field.precipitation = some p ∧ p < 0) := by
  refine ⟨sanitizeMosmixRecord_precipitation, sanitize_record_raises,
    emittedObsRecords_eq_nil, ?_⟩
  intro rs r hr
  rcases List.mem_map.mp hr with ⟨r0, _, hr0⟩
  rintro ⟨p, hp, hneg⟩
  rw [← hr0, sanitizeMosmixRecord_precipitation] at hp
  split at hp
  · split at hp
    · cases hp
    · rename_i hq
      exact hq (by rw [Option.some.inj hp]; exact hneg)
  · cases hp

/-- Witness for C5: the MOSMIX record with parsed precipitation -0.1 is
emitted with precipitation nulled, never negative. -/
theorem C5_negative_precipitation_witness :
    ¬∃ p, sanitizeMosmixRecord recordNegPrecip Field.precipitation = some p ∧
      p < 0 :=
  C5_negative_precipitation.2.2.2 [recordNegPrecip]
    (sanitizeMosmixRecord recordNegPrecip)
    (List.mem_map_of_mem sanitizeMosmixRecord (List.mem_singleton_self _))

/-! ## C7: ignored-values override -/

/-- C7: the code cannot perform the claimed override. `sanitize_record` reads
`self.ignored_values`, but no attribute of that name exists on
`ObservationsParser` — the property is defined as `_ignored_values` — so every
call raises `AttributeError`; moreover the cache guard
`hasattr(ObservationsParser, '_ignored_values')` inside the property is
always true (the property itself bears that name), so the YAML file would
never be loaded. The loop body itself, given the per-timestamp map the
property was meant to return, does match the claim: a field equal to the
configured bad value is nulled and any other listed field is kept. -/
theorem C7_ignored_values_attribute_bug :
    "ignored_values" ∉ observationsParserAttributes ∧
    "_ignored_values" ∈ observationsParserAttributes ∧
    (∀ (fv : Field × ℚ) (r : Field → Option ℚ),
      sanitize_record_obs [fv] r fv.1 =
        if r fv.1 = some fv.2 then none else r fv.1) := by
  refine ⟨by decide, by decide, ?_⟩
  intro fv r
  show (if r fv.1 = some fv.2 then updField r fv.1 none else r) fv.1 = _
  by_cases h : r fv.1 = some fv.2
  · simp [h, updField_self]
  · simp [h]

/-! ## C8: provenance string -/

/-- C8 counterexample: for a `_hist.zip` archive the parser's observation
type is `historical`, yet every emitted record's `source` is the hardcoded
`Observations:Recent:<filename>` — not
`Observations:<ObservationType>:<filename>`. -/
theorem C8_counterexample :
    parse_observation_type "stundenwerte_RR_00003_19500101_20110401_hist.zip" =
      .ok "historical" ∧
    observationsRecordSource "produkt_rr_stunde_19500101_20110401_00003.txt" ≠
      "Observations:" ++ "historical" ++
        ":produkt_rr_stunde_19500101_20110401_00003.txt" := by
  constructor
  · decide
  · decide

/-- C8 (amended): `observation_type` is `recent` for filenames ending
`_akt.zip` and `historical` for those ending `_hist.zip`, but the `source`
attribute of every emitted record is `Observations:Recent:<filename>`
regardless of the observation type. -/
theorem C8_provenance_string :
    (∀ fn ot, parse_observation_type fn = Except.ok ot →
      (pyEndsWith fn "_akt.zip" = true ∧ ot = "recent") ∨
      (pyEndsWith fn "_akt.zip" = false ∧ pyEndsWith fn "_hist.zip" = true ∧
        ot = "historical")) ∧
    (∀ pf, observationsRecordSource pf = "Observations:Recent:" ++ pf) := by
  constructor
  · intro fn ot h
    unfold parse_observation_type at h
    by_cases h1 : pyEndsWith fn "_akt.zip"
    · left
      rw [if_pos h1] at h
      exact ⟨h1, (Except.ok.injEq _ _).mp h.symm⟩
    · right
      rw [if_neg h1] at h
      by_cases h2 : pyEndsWith fn "_hist.zip"
      · rw [if_pos h2] at h
        exact ⟨by simpa using h1, h2, (Except.ok.injEq _ _).mp h.symm⟩
      · rw [if_neg h2] at h
        cases h
  · intro pf
    rfl

/-- Witness for C8: the amended statement applied to a recent-observations
filename. -/
theorem C8_provenance_string_witness :
    (pyEndsWith "stundenwerte_TU_00044_akt.zip" "_akt.zip" = true ∧
      "recent" = "recent") ∨
    (pyEndsWith "stundenwerte_TU_00044_akt.zip" "_akt.zip" = false ∧
      pyEndsWith "stundenwerte_TU_00044_akt.zip" "_hist.zip" = true ∧
      "recent" = "historical") :=
  C8_provenance_string.1 "stundenwerte_TU_00044_akt.zip" "recent" (by decide)

/-! ## C9: missing station error -/

/-- C9 counterexample: with no forecast row for the station, the
current-observations location lookup fails with `ValueError` — there is no
`MissingStationError` anywhere in the code. -/
theorem C9_counterexample :
    load_location [] "01766" =
      .error (.valueError "Unable to find location for station 01766") ∧
    (Except.error (PyError.valueError
        "Unable to find location for station 01766") :
        Except PyError (ℚ × ℚ × ℚ × String)) ≠
      .error .missingStationError := by
  constructor
  · decide
  · decide

/-- C9 (amended): for every current-observations file whose station code has
no forecast row in the sources table, `load_location` fails with
`ValueError('Unable to find location for station <id>')`. -/
theorem C9_missing_station :
    ∀ (tbl : List SourceRow) (sid : String),
    (∀ s ∈ tbl, ¬(s.observation_type = "forecast" ∧ s.station_id = sid)) →
    load_location tbl sid =
      .error (.valueError ("Unable to find location for station " ++ sid)) := by
  intro tbl sid h
  unfold load_location
  have hfil : tbl.filter (fun s =>
      decide (s.observation_type = "forecast" ∧ s.station_id = sid)) = [] := by
    rw [List.filter_eq_nil_iff]
    intro s hs
    simp only [decide_eq_true_eq]
    exact h s hs
  rw [hfil]
  rfl

/-- A non-forecast source row used by witnesses. -/
def currentSourceRow : SourceRow :=
  ⟨7, "01766", "10315", "01766", "Muenster", "current", 52, 7, 48⟩

/-- Witness for C9: a table holding only a current-observations source has no
forecast row for the station, and the lookup raises `ValueError`. -/
theorem C9_missing_station_witness :
    load_location [currentSourceRow] "01766" =
      .error (.valueError ("Unable to find location for station " ++ "01766")) :=
  C9_missing_station [currentSourceRow] "01766" (by decide)

/-! ## C3: fingerprint dedupe -/

theorem lookup_ledgerOfListing (listing : List PollFileInfo)
    (fi : PollFileInfo) (hnd : (listing.map PollFileInfo.url).Nodup)
    (hm : fi ∈ listing) :
    (ledgerOfListing listing).lookup fi.url =
      some (fi.last_modified, fi.file_size) := by
  induction listing with
  | nil => cases hm
  | cons hd tl ih =>
    rw [List.map_cons, List.nodup_cons] at hnd
    rcases List.mem_cons.mp hm with heq | htl
    · subst heq
      show List.lookup fi.url ((fi.url, fi.last_modified, fi.file_size) ::
        ledgerOfListing tl) = _
      simp [List.lookup]
    · have hne : hd.url ≠ fi.url := by
        intro hcontra
        exact hnd.1 (hcontra ▸ List.mem_map_of_mem PollFileInfo.url htl)
      have hbeq : (fi.url == hd.url) = false :=
        beq_eq_false_iff_ne.mpr (Ne.symm hne)
      show List.lookup fi.url ((hd.url, hd.last_modified, hd.file_size) ::
        ledgerOfListing tl) = _
      rw [List.lookup, hbeq]
      exact ih hnd.2 htl

/-- C3: `DWDPoller.poll` emits a job for a listed file exactly when the
ledger has no entry for its URL or the ledger entry's
`(last_modified, file_size)` differs from the listing's fingerprint; hence a
second poll over an unchanged listing, after the ledger recorded every file,
emits nothing. -/
theorem C3_fingerprint_dedupe :
    (∀ (ledger : List (String × Nat × Nat)) (listing : List PollFileInfo)
      (fi : PollFileInfo),
      fi ∈ poll ledger listing ↔
        fi ∈ listing ∧
          (ledger.lookup fi.url = none ∨
            ∃ p, ledger.lookup fi.url = some p ∧
              p ≠ (fi.last_modified, fi.file_size))) ∧
    (∀ listing : List PollFileInfo,
      (listing.map PollFileInfo.url).Nodup →
      poll (ledgerOfListing listing) listing = []) := by
  constructor
  · intro ledger listing fi
    unfold poll
    rw [List.mem_filter]
    simp only [decide_eq_true_eq]
    constructor
    · rintro ⟨hmem, hne⟩
      refine ⟨hmem, ?_⟩
      cases hl : ledger.lookup fi.url with
      | none => exact Or.inl rfl
      | some p =>
        refine Or.inr ⟨p, rfl, ?_⟩
        intro hp
        exact hne (by rw [hl, hp])
    · rintro ⟨hmem, hor⟩
      refine ⟨hmem, ?_⟩
      rcases hor with hnone | ⟨p, hp, hpne⟩
      · rw [hnone]; exact fun h => Option.noConfusion h
      · rw [hp]
        intro h
        exact hpne (Option.some.inj h)
  · intro listing hnd
    unfold poll
    rw [List.filter_eq_nil_iff]
    intro fi hm
    simp only [decide_eq_true_eq, not_not]
    exact lookup_ledgerOfListing listing fi hnd hm

/-- Witness for C3: two files, ledger written from the very listing, second
poll is empty. -/
theorem C3_fingerprint_dedupe_witness :
    poll (ledgerOfListing
        [⟨"https://opendata.dwd.de/a.zip", "WindObservationsParser", 3, 11⟩,
         ⟨"https://opendata.dwd.de/b.kmz", "MOSMIXParser", 4, 12⟩])
      [⟨"https://opendata.dwd.de/a.zip", "WindObservationsParser", 3, 11⟩,
       ⟨"https://opendata.dwd.de/b.kmz", "MOSMIXParser", 4, 12⟩] = [] :=
  C3_fingerprint_dedupe.2
    [⟨"https://opendata.dwd.de/a.zip", "WindObservationsParser", 3, 11⟩,
     ⟨"https://opendata.dwd.de/b.kmz", "MOSMIXParser", 4, 12⟩] (by decide)

/-! ## C6: location-history selection -/

theorem selectLocation_skip (t : Nat) :
    ∀ (h : List (Nat × Location)) (acc : Option Location),
    (∀ e ∈ h, t < e.1) → selectLocation h t acc = acc := by
  intro h
  induction h with
  | nil => intro acc _; rfl
  | cons e rest _ =>
    intro acc hall
    show (if t < e.1 then acc else _) = acc
    rw [if_pos (hall e (List.mem_cons_self _ _))]

theorem foldl_bestStep_skip (t : Nat) :
    ∀ (h : List (Nat × Location)) (a : Option (Nat × Location)),
    (∀ e ∈ h, t < e.1) → h.foldl (bestStep t) a = a := by
  intro h
  induction h with
  | nil => intro a _; rfl
  | cons e rest ih =>
    intro a hall
    have hstep : bestStep t a e = a := by
      unfold bestStep
      rw [if_neg (not_le.mpr (hall e (List.mem_cons_self _ _)))]
    rw [List.foldl_cons, hstep]
    exact ih a (fun p hp => hall p (List.mem_cons_of_mem _ hp))

theorem selectLocation_foldl (t : Nat) :
    ∀ (h : List (Nat × Location)),
    h.Pairwise (fun p q => p.1 < q.1) →
    ∀ (a : Option (Nat × Location)),
    (∀ e ∈ h, ∀ q, a = some q → q.1 < e.1) →
    selectLocation h t (a.map (fun e => e.2)) =
      (h.foldl (bestStep t) a).map (fun e => e.2) := by
  intro h
  induction h with
  | nil => intro _ a _; rfl
  | cons e rest ih =>
    intro hsorted a hacc
    have hrest : ∀ p ∈ rest, e.1 < p.1 :=
      fun p hp => List.rel_of_pairwise_cons hsorted hp
    by_cases hle : e.1 ≤ t
    · have hstep : bestStep t a e = some e := by
        unfold bestStep
        rw [if_pos hle]
        cases ha : a with
        | none => rfl
        | some q =>
          have hq : q.1 < e.1 := hacc e (List.mem_cons_self _ _) q ha
          simp [hq]
      have hsel : selectLocation (e :: rest) t (a.map (fun x => x.2)) =
          selectLocation rest t (some e.2) := by
        show (if t < e.1 then _ else _) = _
        rw [if_neg (not_lt.mpr hle)]
      rw [hsel, List.foldl_cons, hstep]
      have := ih hsorted.of_cons (some e) (fun p hp q hq => by
        have heq : e = q := Option.some.inj hq
        subst heq
        exact hrest p hp)
      simpa using this
    · have hlt : t < e.1 := not_le.mp hle
      have hsel : selectLocation (e :: rest) t (a.map (fun x => x.2)) =
          a.map (fun x => x.2) := by
        show (if t < e.1 then _ else _) = _
        rw [if_pos hlt]
      have hstep : bestStep t a e = a := by
        unfold bestStep
        rw [if_neg hle]
      rw [hsel, List.foldl_cons, hstep,
        foldl_bestStep_skip t rest a (fun p hp => lt_trans hlt (hrest p hp))]

theorem selectLocation_eq_spec (history : List (Nat × Location)) (t : Nat)
    (hsorted : history.Pairwise (fun p q => p.1 < q.1)) :
    selectLocation history t none = specLatestLocation history t := by
  have := selectLocation_foldl t history hsorted none (by simp)
  simpa [specLatestLocation, specBestEntry] using this

theorem selectLocation_acc (history : List (Nat × Location)) (t : Nat)
    (hsorted : history.Pairwise (fun p q => p.1 < q.1))
    (hex : ∃ e ∈ history, e.1 ≤ t) (acc : Option Location) :
    selectLocation history t acc = selectLocation history t none := by
  cases history with
  | nil =>
    rcases hex with ⟨p, hp, _⟩
    cases hp
  | cons e rest =>
    have hle : e.1 ≤ t := by
      rcases hex with ⟨p, hp, hpt⟩
      rcases List.mem_cons.mp hp with rfl | hm
      · exact hpt
      · exact le_of_lt (lt_of_lt_of_le
          (List.rel_of_pairwise_cons hsorted hm) hpt)
    show (if t < e.1 then acc else _) = (if t < e.1 then none else _)
    rw [if_neg (not_lt.mpr hle), if_neg (not_lt.mpr hle)]

/-- C6 counterexample: with the same geography entries stored in a different
order, dict-iteration order [(10, A), (5, B)] and row timestamp 10, the
emitted location is B although the entry with the greatest
`valid_from ≤ 10` is A — the loop does not select by greatest `valid_from`
when the entries are unsorted. -/
theorem C6_counterexample :
    parse_records_locations [(10, (1, 2, 3, "A")), (5, (4, 5, 6, "B"))] none
        [10] = [(10, some (4, 5, 6, "B"))] ∧
    specLatestLocation [(10, (1, 2, 3, "A")), (5, (4, 5, 6, "B"))] 10 =
      some (1, 2, 3, "A") ∧
    ((4, 5, 6, "B") : Location) ≠ (1, 2, 3, "A") := by
  refine ⟨rfl, rfl, ?_⟩
  norm_num

/-- C6 (amended): when the geography file's entries are sorted strictly
ascending by `valid_from` (the order DWD files use; dict insertion order
preserves it) and every data row's timestamp has some entry at or before it,
each emitted record carries the location of the entry with the greatest
`valid_from ≤ timestamp`. With unsorted entries the loop can pick another
entry (see the counterexample). -/
theorem C6_location_history :
    ∀ (history : List (Nat × Location)) (tss : List Nat),
    history.Pairwise (fun p q => p.1 < q.1) →
    (∀ t ∈ tss, ∃ e ∈ history, e.1 ≤ t) →
    parse_records_locations history none tss =
      tss.map (fun t => (t, specLatestLocation history t)) := by
  intro history tss hsorted hex
  suffices h : ∀ (acc : Option Location) (ts2 : List Nat),
      (∀ t ∈ ts2, ∃ e ∈ history, e.1 ≤ t) →
      parse_records_locations history acc ts2 =
        ts2.map (fun t => (t, specLatestLocation history t)) from
    h none tss hex
  intro acc ts2
  induction ts2 generalizing acc with
  | nil => intro _; rfl
  | cons t ts ih =>
    intro hex2
    have ht : selectLocation history t acc = specLatestLocation history t := by
      rw [selectLocation_acc history t hsorted
        (hex2 t (List.mem_cons_self _ _)) acc]
      exact selectLocation_eq_spec history t hsorted
    show (t, selectLocation history t acc) :: _ = _
    rw [List.map_cons, ht,
      ih _ (fun t2 h2 => hex2 t2 (List.mem_cons_of_mem _ h2))]

/-- Witness for C6: a sorted two-entry history over two rows; each row gets
the greatest entry at or before its timestamp. -/
theorem C6_location_history_witness :
    parse_records_locations [(0, (1, 2, 3, "A")), (5, (4, 5, 6, "B"))] none
        [3, 7] =
      [3, 7].map (fun t =>
        (t, specLatestLocation [(0, (1, 2, 3, "A")), (5, (4, 5, 6, "B"))] t)) :=
  C6_location_history [(0, (1, 2, 3, "A")), (5, (4, 5, 6, "B"))] [3, 7]
    (by decide) (by decide)

/-! ## Lemmas about `weatherQuery` -/

theorem matchesWeather_iff (date last_date : Nat) (sel : SourceSel)
    (not_null : List Field) (r : Row) :
    matchesWeather date last_date sel not_null r = true ↔
      (date ≤ r.timestamp ∧ r.timestamp ≤ last_date ∧
        sel.matches r.source_id = true ∧
        ∀ f ∈ not_null, (r.fields f).isSome = true) := by
  simp [matchesWeather, and_assoc]

theorem mem_weatherQuery {table : List Row} {date last_date : Nat}
    {sel : SourceSel} {not_null : List Field} {r : Row}
    (h : r ∈ weatherQuery table date last_date sel not_null) :
    r ∈ table ∧ matchesWeather date last_date sel not_null r = true := by
  unfold weatherQuery at h
  rcases List.mem_filterMap.mp h with ⟨t, _, harg⟩
  have hmem := List.argmin_mem (Option.mem_def.mpr harg)
  have h1 := List.mem_filter.mp hmem
  exact ⟨(List.mem_filter.mp h1.1).1, (List.mem_filter.mp h1.1).2⟩

theorem weatherQuery_sorted (table : List Row) (date last_date : Nat)
    (sel : SourceSel) (not_null : List Field) :
    (weatherQuery table date last_date sel not_null).Pairwise
      (fun a b => a.timestamp < b.timestamp) := by
  unfold weatherQuery
  set rows := table.filter (matchesWeather date last_date sel not_null)
    with hrows
  have hts : ((rows.map (fun r => r.timestamp)).dedup.insertionSort
      (· ≤ ·)).Pairwise (· < ·) := by
    have hsorted : ((rows.map (fun r => r.timestamp)).dedup.insertionSort
        (· ≤ ·)).Pairwise (· ≤ ·) :=
      List.sorted_insertionSort (· ≤ ·) _
    have hnodup : ((rows.map (fun r => r.timestamp)).dedup.insertionSort
        (· ≤ ·)).Nodup :=
      (List.perm_insertionSort (· ≤ ·) _).nodup_iff.mpr (List.nodup_dedup _)
    exact (hsorted.and hnodup).imp (fun h => lt_of_le_of_ne h.1 h.2)
  refine List.Pairwise.filterMap _ ?_ hts
  intro t t' hlt r hr r' hr'
  have h1 := List.mem_filter.mp (List.argmin_mem hr)
  have h2 := List.mem_filter.mp (List.argmin_mem hr')
  have e1 : r.timestamp = t := by simpa using h1.2
  have e2 : r'.timestamp = t' := by simpa using h2.2
  rw [e1, e2]
  exact hlt

theorem weatherQuery_covers {table : List Row} {date last_date : Nat}
    {sel : SourceSel} {not_null : List Field} {rc : Row} (hmem : rc ∈ table)
    (hmatch : matchesWeather date last_date sel not_null rc = true) :
    ∃ r ∈ weatherQuery table date last_date sel not_null,
      r.timestamp = rc.timestamp := by
  unfold weatherQuery
  set rows := table.filter (matchesWeather date last_date sel not_null)
    with hrows
  have hrc : rc ∈ rows := List.mem_filter.mpr ⟨hmem, hmatch⟩
  have ht : rc.timestamp ∈ (rows.map (fun r => r.timestamp)).dedup.insertionSort
      (· ≤ ·) := by
    rw [(List.perm_insertionSort (· ≤ ·) _).mem_iff, List.mem_dedup]
    exact List.mem_map_of_mem _ hrc
  have hfil : rc ∈ rows.filter (fun r => decide (r.timestamp = rc.timestamp)) :=
    List.mem_filter.mpr ⟨hrc, by simp⟩
  have hne : rows.filter (fun r => decide (r.timestamp = rc.timestamp)) ≠ [] := by
    intro hnil
    rw [hnil] at hfil
    cases hfil
  have harg : (rows.filter
      (fun r => decide (r.timestamp = rc.timestamp))).argmin sel.rank ≠ none := by
    rw [Ne, List.argmin_eq_none]
    exact hne
  rcases Option.ne_none_iff_exists'.mp harg with ⟨r, hr⟩
  refine ⟨r, List.mem_filterMap.mpr ⟨rc.timestamp, ht, hr⟩, ?_⟩
  have h1 := List.mem_filter.mp (List.argmin_mem (Option.mem_def.mpr hr))
  simpa using h1.2

theorem weatherQuery_eq_nil {table : List Row} {date last_date : Nat}
    {sel : SourceSel} {not_null : List Field}
    (h : ∀ r ∈ table, matchesWeather date last_date sel not_null r = false) :
    weatherQuery table date last_date sel not_null = [] := by
  unfold weatherQuery
  have hfil : table.filter (matchesWeather date last_date sel not_null) = [] :=
    List.filter_eq_nil_iff.mpr (fun a ha => by
      rw [h a ha]
      exact Bool.false_ne_true)
  rw [hfil]
  rfl

theorem weatherQuery_length_le (table : List Row) (date last_date : Nat)
    (sel : SourceSel) (not_null : List Field) :
    (weatherQuery table date last_date sel not_null).length ≤
      last_date + 1 - date := by
  unfold weatherQuery
  set rows := table.filter (matchesWeather date last_date sel not_null)
    with hrows
  set ts := (rows.map (fun r => r.timestamp)).dedup.insertionSort (· ≤ ·)
    with hts
  refine le_trans (List.length_filterMap_le _ _) ?_
  have hnodup : ts.Nodup :=
    (List.perm_insertionSort (· ≤ ·) _).nodup_iff.mpr (List.nodup_dedup _)
  have hbounds : ∀ x ∈ ts, date ≤ x ∧ x ≤ last_date := by
    intro x hx
    rw [hts, (List.perm_insertionSort (· ≤ ·) _).mem_iff, List.mem_dedup] at hx
    rcases List.mem_map.mp hx with ⟨r, hr, hxr⟩
    have hm := (matchesWeather_iff date last_date sel not_null r).mp
      (List.mem_filter.mp hr).2
    rw [← hxr]
    exact ⟨hm.1, hm.2.1⟩
  have hsub : ts.toFinset ⊆ Finset.Icc date last_date := by
    intro x hx
    rw [List.mem_toFinset] at hx
    rw [Finset.mem_Icc]
    exact hbounds x hx
  have hcard := Finset.card_le_card hsub
  rw [List.toFinset_card_of_nodup hnodup, Nat.card_Icc] at hcard
  exact hcard

/-! ## C10: source_id query result shape and LookupError -/

theorem sources_source_id_ok {stable : List SourceRow} {s : Nat}
    (h : ∃ src ∈ stable, src.id = s) :
    ∃ rows, sources_source_id stable s = .ok rows := by
  unfold sources_source_id
  rcases h with ⟨src, hmem, hid⟩
  have hfil : src ∈ stable.filter (fun src => decide (src.id = s)) :=
    List.mem_filter.mpr ⟨hmem, by simpa using hid⟩
  have hsrc : src ∈ (stable.filter
      (fun src => decide (src.id = s))).insertionSort
        (fun a b => a.observation_type ≤ b.observation_type) :=
    (List.perm_insertionSort
      (fun a b : SourceRow => a.observation_type ≤ b.observation_type)
      _).mem_iff.mpr hfil
  have hne : ¬(((stable.filter
      (fun src => decide (src.id = s))).insertionSort
        (fun a b => a.observation_type ≤ b.observation_type)).isEmpty = true) := by
    intro hemp
    rw [List.isEmpty_iff] at hemp
    rw [hemp] at hsrc
    cases hsrc
  rw [if_neg hne]
  exact ⟨_, rfl⟩

theorem sources_source_id_err {stable : List SourceRow} {s : Nat}
    (h : ¬∃ src ∈ stable, src.id = s) :
    sources_source_id stable s =
      .error (.lookupError "No sources match your criteria") := by
  unfold sources_source_id
  have hfil : stable.filter (fun src => decide (src.id = s)) = [] := by
    rw [List.filter_eq_nil_iff]
    intro src hmem
    simp only [decide_eq_true_eq]
    exact fun hid => h ⟨src, hmem, hid⟩
  rw [hfil]
  rfl

theorem weather_by_source_ok {table : List Row} {stable : List SourceRow}
    {d : Nat} {last_date : Option Nat} {s : Nat} {res : QueryResult}
    (h : weather_by_source table stable d last_date s = .ok res) :
    res = ⟨weatherQuery table d (defaultLastDate d last_date) (.single s) [],
      none⟩ := by
  simp only [weather_by_source] at h
  set w := weatherQuery table d (defaultLastDate d last_date) (.single s) []
    with hw
  by_cases hemp : w.isEmpty
  · rw [if_pos hemp] at h
    cases hsrc : sources_source_id stable s with
    | error e => rw [hsrc] at h; cases h
    | ok rows =>
      rw [hsrc] at h
      have := Except.ok.inj h
      rw [← this]
  · rw [if_neg hemp] at h
    have := Except.ok.inj h
    rw [← this]

/-- C10: `weather(date, source_id=s)` returns a dict with only the `weather`
key; if a source with id `s` exists the call succeeds — with an empty list
when no row of that source lies in the queried interval — and it raises
`LookupError` exactly when no source with id `s` exists (assuming every
weather row references an existing source). -/
theorem C10_weather_by_source :
    ∀ (table : List Row) (stable : List SourceRow) (d s : Nat),
    (∀ r ∈ table, ∃ src ∈ stable, src.id = r.source_id) →
    (∀ res, weather_by_source table stable d none s = .ok res →
      res.sources = none) ∧
    ((∃ src ∈ stable, src.id = s) →
      ∃ res, weather_by_source table stable d none s = .ok res) ∧
    ((∃ src ∈ stable, src.id = s) ∧
        (∀ r ∈ table,
          ¬(r.source_id = s ∧ d ≤ r.timestamp ∧ r.timestamp ≤ d + 24)) →
      weather_by_source table stable d none s = .ok ⟨[], none⟩) ∧
    ((¬∃ src ∈ stable, src.id = s) →
      weather_by_source table stable d none s =
        .error (.lookupError "No sources match your criteria")) := by
  intro table stable d s hfk
  refine ⟨?_, ?_, ?_, ?_⟩
  · intro res hres
    rw [weather_by_source_ok hres]
  · intro hex
    simp only [weather_by_source, defaultLastDate]
    by_cases hemp : (weatherQuery table d (d + 24) (.single s) []).isEmpty
    · rcases sources_source_id_ok hex with ⟨rows, hrows⟩
      rw [if_pos hemp, hrows]
      exact ⟨_, rfl⟩
    · rw [if_neg hemp]
      exact ⟨_, rfl⟩
  · rintro ⟨hex, hnone⟩
    have hnil : weatherQuery table d (d + 24) (.single s) [] = [] := by
      apply weatherQuery_eq_nil
      intro r hr
      rw [Bool.eq_false_iff]
      intro htrue
      have hm := (matchesWeather_iff _ _ _ _ _).mp htrue
      have hsrc : r.source_id = s := by
        simpa [SourceSel.matches] using hm.2.2.1
      exact hnone r hr ⟨hsrc, hm.1, hm.2.1⟩
    simp only [weather_by_source, defaultLastDate]
    rw [hnil]
    rcases sources_source_id_ok hex with ⟨rows, hrows⟩
    rw [hrows]
    rfl
  · intro hnex
    have hnil : weatherQuery table d (d + 24) (.single s) [] = [] := by
      apply weatherQuery_eq_nil
      intro r hr
      rw [Bool.eq_false_iff]
      intro htrue
      have hm := (matchesWeather_iff _ _ _ _ _).mp htrue
      have hsrc : r.source_id = s := by
        simpa [SourceSel.matches] using hm.2.2.1
      exact hnex (hsrc ▸ hfk r hr)
    simp only [weather_by_source, defaultLastDate]
    rw [hnil, sources_source_id_err hnex]
    rfl

/-- A forecast source row with id 1, used by concrete instances. -/
def forecastSourceRow : SourceRow :=
  ⟨1, "01766", "10315", "01766", "Muenster", "forecast", 52, 7, 48⟩

/-- A weather row of source 1 at timestamp 3 with all measurements present. -/
def rowAt3 : Row := ⟨1, 3, fun _ => some 1⟩

/-- Witness for C10: with one source (id 1) and one weather row of that
source, querying source id 2 raises `LookupError`. -/
theorem C10_weather_by_source_witness :
    weather_by_source [rowAt3] [forecastSourceRow] 0 none 2 =
      .error (.lookupError "No sources match your criteria") :=
  (C10_weather_by_source [rowAt3] [forecastSourceRow] 0 2 (by decide)).2.2.2
    (by decide)

/-! ## C4: query interval bounds -/

/-- A weather table with one source-1 row at every hour 0, 1, ..., 24. -/
def table25 : List Row :=
  (List.range 25).map (fun i => ⟨1, i, fun _ => some 1⟩)

/-- The result of `weather(0, source_id=1)` over `table25`. -/
def c4Result : QueryResult :=
  (weather_by_source table25 [forecastSourceRow] 0 none 1).toOption.getD
    ⟨[], none⟩

/-- C4 counterexample: `timestamp BETWEEN date AND last_date` is inclusive on
both ends, so with hourly rows at 0..24 the query for date 0 (last_date
defaulting to one day later, 24) returns 25 rows, one of which has timestamp
equal to `date + 1 day` — the claimed bound of at most 24 rows with
`timestamp < date + 1 day` is false. -/
theorem C4_counterexample :
    c4Result.weather.length = 25 ∧
    ¬(c4Result.weather.length ≤ 24 ∧
      ∀ r ∈ c4Result.weather, r.timestamp < 0 + 24) := by
  have h25 : c4Result.weather.length = 25 := by decide
  refine ⟨h25, ?_⟩
  intro h
  rw [h25] at h
  exact absurd h.1 (by norm_num)

/-- C4 (amended): `weather(d, source_id=s)` uses `last_date = d + 1 day` when
`last_date` is omitted, and on an hourly timestamp grid every successful
result has at most 25 rows with pairwise distinct timestamps, each satisfying
`d ≤ timestamp ≤ d + 1 day` — the `BETWEEN` interval is closed, so the row at
exactly `d + 1 day` is included and 25 (not 24) is the sharp bound. -/
theorem C4_interval_bounds :
    ∀ (table : List Row) (stable : List SourceRow) (d s : Nat)
      (res : QueryResult),
    weather_by_source table stable d none s = .ok res →
    weather_by_source table stable d none s =
      weather_by_source table stable d (some (d + 24)) s ∧
    res.weather.length ≤ 25 ∧
    (∀ r ∈ res.weather, d ≤ r.timestamp ∧ r.timestamp ≤ d + 24) ∧
    res.weather.Pairwise (fun a b => a.timestamp < b.timestamp) := by
  intro table stable d s res h
  have hres := weather_by_source_ok h
  have hw : res.weather = weatherQuery table d (d + 24) (.single s) [] := by
    rw [hres]
    rfl
  refine ⟨rfl, ?_, ?_, ?_⟩
  · rw [hw]
    have := weatherQuery_length_le table d (d + 24) (.single s) []
    omega
  · intro r hr
    rw [hw] at hr
    have hm := (matchesWeather_iff _ _ _ _ _).mp (mem_weatherQuery hr).2
    exact ⟨hm.1, hm.2.1⟩
  · rw [hw]
    exact weatherQuery_sorted table d (d + 24) (.single s) []

/-- Witness for C4: the one-row table at hour 3 satisfies all the amended
bounds. -/
theorem C4_interval_bounds_witness :
    weather_by_source [rowAt3] [forecastSourceRow] 0 none 1 =
      weather_by_source [rowAt3] [forecastSourceRow] 0 (some (0 + 24)) 1 ∧
    (QueryResult.mk [rowAt3] none).weather.length ≤ 25 ∧
    (∀ r ∈ (QueryResult.mk [rowAt3] none).weather,
      0 ≤ r.timestamp ∧ r.timestamp ≤ 0 + 24) ∧
    (QueryResult.mk [rowAt3] none).weather.Pairwise
      (fun a b => a.timestamp < b.timestamp) :=
  C4_interval_bounds [rowAt3] [forecastSourceRow] 0 1 ⟨[rowAt3], none⟩
    (by decide)

/-! ## C1: fallback fill -/

theorem mem_missingRowFields {r : Row} {f : Field} :
    f ∈ missingRowFields r ↔ (r.fields f).isNone := by
  simp [missingRowFields, Field.mem_all]

theorem missingRowFields_isEmpty_false {r : Row} {f : Field}
    (h : f ∈ missingRowFields r) : (missingRowFields r).isEmpty = false := by
  cases hmm : missingRowFields r with
  | nil => rw [hmm] at h; cases h
  | cons a l => rfl

theorem first_le_timestamp {first : Row} {rest : List Row} {x : Row}
    (hp : (first :: rest).Pairwise (fun a b => a.timestamp < b.timestamp))
    (hx : x ∈ first :: rest) : first.timestamp ≤ x.timestamp := by
  rcases List.mem_cons.mp hx with rfl | h
  · exact le_refl _
  · exact le_of_lt (List.rel_of_pairwise_cons hp h)

theorem le_lastTimestamp :
    ∀ (rest : List Row) (first x : Row),
    (first :: rest).Pairwise (fun a b => a.timestamp < b.timestamp) →
    x ∈ first :: rest → x.timestamp ≤ lastTimestamp first rest := by
  intro rest
  induction rest with
  | nil =>
    intro first x _ hx
    rcases List.mem_cons.mp hx with rfl | h
    · exact le_refl _
    · cases h
  | cons r2 rest2 ih =>
    intro first x hp hx
    show x.timestamp ≤ lastTimestamp r2 rest2
    rcases List.mem_cons.mp hx with rfl | h
    · have h1 : x.timestamp < r2.timestamp :=
        List.rel_of_pairwise_cons hp (List.mem_cons_self _ _)
      have h2 : r2.timestamp ≤ lastTimestamp r2 rest2 :=
        ih r2 r2 hp.of_cons (List.mem_cons_self _ _)
      exact le_trans (le_of_lt h1) h2
    · exact ih r2 x hp.of_cons h

theorem fallback_lookup_exists {fb_list : List Row} {t : Nat}
    (h : ∃ r ∈ fb_list, r.timestamp = t) :
    ∃ fb, fb_list.reverse.find? (fun r => decide (r.timestamp = t)) = some fb ∧
      fb ∈ fb_list ∧ fb.timestamp = t := by
  have hsome : (fb_list.reverse.find?
      (fun r => decide (r.timestamp = t))).isSome := by
    rw [List.find?_isSome]
    rcases h with ⟨r, hr, ht⟩
    exact ⟨r, List.mem_reverse.mpr hr, by simpa using ht⟩
  rcases Option.isSome_iff_exists.mp hsome with ⟨fb, hfb⟩
  refine ⟨fb, hfb, ?_, ?_⟩
  · exact List.mem_reverse.mp (List.mem_of_find?_eq_some hfb)
  · simpa using List.find?_some hfb

theorem fill_missing_fields_eq (table : List Row) (weather_rows : List Row)
    (d ld : Nat) (source_ids : List Nat) (first : Row) (rest : List Row)
    (hinc : weather_rows.filter (fun r => !(missingRowFields r).isEmpty) =
      first :: rest) :
    _fill_missing_fields table weather_rows d ld source_ids =
      weather_rows.map (fun r =>
        if (missingRowFields r).isEmpty then r.toFilled
        else fillRow (fun t =>
          (weatherQuery table first.timestamp (lastTimestamp first rest)
            (.multi source_ids)
            (Field.all.filter (fun f =>
              (first :: rest).any (fun r => f ∈ missingRowFields r)))).reverse.find?
            (fun r => decide (r.timestamp = t))) r) := by
  simp only [_fill_missing_fields]
  rw [hinc]

/-- C1 (amended): in `weather(..., fallback=true)` over candidate sources
`source_ids`, if the primary returned row at timestamp `t` has a null field
`f`, and some candidate source has a row at `t` in which ALL the fields
missing from any primary returned row are non-null, then the returned row at
`t` has `f` non-null, its value is copied from a fallback row at `t` drawn
from the candidate set, and `fallback_source_ids[f]` is that fallback row's
`source_id`. (The claim's weaker premise — some candidate row at `t` with
only `f` non-null — is not sufficient, see the counterexample: the single
fallback query is restricted to rows where every originally-missing field is
non-null.) -/
theorem C1_fallback_fill :
    ∀ (table : List Row) (source_ids : List Nat) (d ld t : Nat) (f : Field)
      (r0 rc : Row),
    r0 ∈ weatherQuery table d ld (.multi source_ids) [] →
    r0.timestamp = t →
    r0.fields f = none →
    rc ∈ table → rc.source_id ∈ source_ids → rc.timestamp = t →
    (∀ g : Field,
      (∃ r1 ∈ weatherQuery table d ld (.multi source_ids) [],
        (r1.fields g).isNone) → (rc.fields g).isSome) →
    ∃ fr ∈ weather_with_fallback table source_ids d ld,
      fr.timestamp = t ∧ (fr.fields f).isSome ∧
      ∃ (m : Field → Option Nat) (fb : Row),
        fr.fallback_source_ids = some m ∧
        fb ∈ table ∧ fb.source_id ∈ source_ids ∧ fb.timestamp = t ∧
        fr.fields f = fb.fields f ∧ (fb.fields f).isSome ∧
        m f = some fb.source_id := by
  intro table source_ids d ld t f r0 rc hr0W ht0 hf0 hrcT hrcS hrcTs hyp
  subst ht0
  set W := weatherQuery table d ld (.multi source_ids) [] with hW
  have hfm : f ∈ missingRowFields r0 := by
    rw [mem_missingRowFields, hf0]
    rfl
  have hr0e : (missingRowFields r0).isEmpty = false :=
    missingRowFields_isEmpty_false hfm
  have hr0i : r0 ∈ W.filter (fun r => !(missingRowFields r).isEmpty) :=
    List.mem_filter.mpr ⟨hr0W, by rw [hr0e]; rfl⟩
  cases hinc : W.filter (fun r => !(missingRowFields r).isEmpty) with
  | nil =>
    rw [hinc] at hr0i
    cases hr0i
  | cons first rest =>
    rw [hinc] at hr0i
    have hsorted : (first :: rest).Pairwise
        (fun a b => a.timestamp < b.timestamp) := by
      rw [← hinc]
      exact (weatherQuery_sorted table d ld (.multi source_ids) []).filter _
    set MF := Field.all.filter (fun g =>
      (first :: rest).any (fun r => g ∈ missingRowFields r)) with hMF
    have hfMF : f ∈ MF := by
      rw [hMF]
      refine List.mem_filter.mpr ⟨Field.mem_all f, ?_⟩
      rw [List.any_eq_true]
      exact ⟨r0, hr0i, by simpa using hfm⟩
    have hMFsome : ∀ g ∈ MF, (rc.fields g).isSome = true := by
      intro g hg
      rw [hMF] at hg
      have h2 := (List.mem_filter.mp hg).2
      rw [List.any_eq_true] at h2
      rcases h2 with ⟨r1, hr1, hgr1⟩
      have hr1W : r1 ∈ W := by
        rw [← hinc] at hr1
        exact (List.mem_filter.mp hr1).1
      exact hyp g ⟨r1, hr1W, mem_missingRowFields.mp (by simpa using hgr1)⟩
    have hrcm : matchesWeather first.timestamp (lastTimestamp first rest)
        (.multi source_ids) MF rc = true := by
      rw [matchesWeather_iff]
      refine ⟨?_, ?_, ?_, hMFsome⟩
      · rw [hrcTs]
        exact first_le_timestamp hsorted hr0i
      · rw [hrcTs]
        exact le_lastTimestamp rest first r0 hsorted hr0i
      · simpa [SourceSel.matches] using hrcS
    have hcov := weatherQuery_covers hrcT hrcm
    rcases hcov with ⟨fb0, hfb0, hfb0t⟩
    rw [hrcTs] at hfb0t
    have hlook := fallback_lookup_exists ⟨fb0, hfb0, hfb0t⟩
    rcases hlook with ⟨fb, hfind, hfbmem, hfbt⟩
    have hfbprops := mem_weatherQuery hfbmem
    have hfbm := (matchesWeather_iff _ _ _ _ _).mp hfbprops.2
    have hfbS : fb.source_id ∈ source_ids := by
      have := hfbm.2.2.1
      simpa [SourceSel.matches] using this
    have hfbf : (fb.fields f).isSome = true := hfbm.2.2.2 f hfMF
    have heq := fill_missing_fields_eq table W d ld source_ids first rest hinc
    refine ⟨fillRow (fun t =>
      (weatherQuery table first.timestamp (lastTimestamp first rest)
        (.multi source_ids) MF).reverse.find?
        (fun r => decide (r.timestamp = t))) r0, ?_, ?_⟩
    · show _ ∈ weather_with_fallback table source_ids d ld
      simp only [weather_with_fallback, ← hW]
      rw [heq]
      have himg := List.mem_map_of_mem (fun r =>
        if (missingRowFields r).isEmpty then r.toFilled
        else fillRow (fun t =>
          (weatherQuery table first.timestamp (lastTimestamp first rest)
            (.multi source_ids) MF).reverse.find?
            (fun r => decide (r.timestamp = t))) r) hr0W
      simpa [hr0e] using himg
    · rw [fillRow, hfind]
      refine ⟨rfl, by simp [hfm, hfbf], ?_⟩
      refine ⟨_, fb, rfl, hfbprops.1, hfbS, hfbt, ?_, hfbf, ?_⟩
      · simp [hfm]
      · simp [hfm]

/-- Primary source row at hour 5 with pressure_msl and sunshine null. -/
def rowA : Row :=
  ⟨1, 5, fun g =>
    if g = Field.pressure_msl ∨ g = Field.sunshine then none else some 7⟩

/-- Secondary source row at hour 5 with pressure_msl present but sunshine
null. -/
def rowB : Row :=
  ⟨2, 5, fun g => if g = Field.sunshine then none else some 9⟩

/-- C1 counterexample: the primary row (source 1) at hour 5 lacks
pressure_msl, and candidate source 2 has a row at hour 5 with non-null
pressure_msl, yet the returned row still has pressure_msl null: the single
fallback query demands ALL missing fields (pressure_msl AND sunshine)
non-null, which excludes source 2's row. -/
theorem C1_counterexample :
    (∃ r0 ∈ weatherQuery [rowA, rowB] 0 24 (.multi [1, 2]) [],
      r0.timestamp = 5 ∧ r0.fields Field.pressure_msl = none) ∧
    (rowB ∈ [rowA, rowB] ∧ rowB.source_id ∈ [1, 2] ∧ rowB.timestamp = 5 ∧
      (rowB.fields Field.pressure_msl).isSome) ∧
    (∀ fr ∈ weather_with_fallback [rowA, rowB] [1, 2] 0 24,
      fr.timestamp = 5 → fr.fields Field.pressure_msl = none) := by
  decide

/-- Primary source row at hour 5 whose only missing field is pressure_msl. -/
def rowA2 : Row :=
  ⟨1, 5, fun g => if g = Field.pressure_msl then none else some 7⟩

/-- Secondary source row at hour 5 with every field present. -/
def rowB2 : Row := ⟨2, 5, fun _ => some 9⟩

/-- Witness for C1: source 2's complete row fills the missing pressure_msl of
source 1's row at hour 5 and is recorded in fallback_source_ids. -/
theorem C1_fallback_fill_witness :
    ∃ fr ∈ weather_with_fallback [rowA2, rowB2] [1, 2] 0 24,
      fr.timestamp = 5 ∧ (fr.fields Field.pressure_msl).isSome ∧
      ∃ (m : Field → Option Nat) (fb : Row),
        fr.fallback_source_ids = some m ∧
        fb ∈ [rowA2, rowB2] ∧ fb.source_id ∈ [1, 2] ∧ fb.timestamp = 5 ∧
        fr.fields Field.pressure_msl = fb.fields Field.pressure_msl ∧
        (fb.fields Field.pressure_msl).isSome ∧
        m Field.pressure_msl = some fb.source_id :=
  C1_fallback_fill [rowA2, rowB2] [1, 2] 0 24 5 Field.pressure_msl rowA2 rowB2
    (by decide) (by decide) (by decide) (by decide) (by decide) (by decide)
    (by decide)

end Brightsky
